import Mathlib

/-!
Verification of the laserfinity gridfinity-baseplate generator
(src/laserfinity.py), shallowly embedded over exact rational arithmetic.

The embedding mirrors the Python source:
- module-level physical constants (millimetres, DPI);
- mm_to_px unit conversion;
- fraction_to_float and convert_to_inches, modelled on character lists
  (a Python string is its character sequence), with Option replacing
  raised exceptions;
- create_gridfinity_baseplate_svg, modelled as the list of rounded-rectangle
  shapes handed to the svgwrite library (one border, then one per cell,
  columns outer and rows inner);
- the main glue, modelled as a function of the two parsed optional
  dimensions, returning either the usage-message-and-exit-1 outcome or the
  emitted shape list.
-/

namespace Laserfinity

/-- The top size of the grid unit in mm, for spacing (source line 6). -/
def top_unit_size_mm : ℚ := 42

/-- The base size of the grid unit in mm, for drawing (source line 7). -/
def base_unit_size_mm : ℚ := 371 / 10

/-- Radius of the rounded corners in mm (source line 8). -/
def corner_radius_mm : ℚ := 16 / 10

/-- Millimeters per inch (source line 9). -/
def mm_per_inch : ℚ := 254 / 10

/-- DPI, standard for many systems (source line 10). -/
def dpi : ℚ := 96

/-- Hairline stroke width in mm for laser cutting (source line 11). -/
def hairline_stroke_mm : ℚ := 1 / 100

/-- Convert millimeters to pixels using the specified DPI (source lines 14-16). -/
def mm_to_px (mm : ℚ) : ℚ := mm * (dpi / mm_per_inch)

/-- Python str.split with a single-character separator: splits at every
occurrence of the separator, keeping empty pieces. -/
def splitChar (sep : Char) : List Char → List (List Char)
  | [] => [[]]
  | c :: rest =>
    if c = sep then [] :: splitChar sep rest
    else (c :: (splitChar sep rest).headI) :: (splitChar sep rest).tail

/-- ASCII whitespace, the characters matched by the regex class for
whitespace in the source's ASCII inputs. -/
def isPySpace (c : Char) : Bool :=
  c = ' ' || c = '\t' || c = '\n' || c = '\r' || c = '\x0b' || c = '\x0c'

/-- A character matched by the value group of the regex on source line 31:
a digit, a dot, a slash or whitespace. -/
def isValueChar (c : Char) : Bool :=
  c.isDigit || c = '.' || c = '/' || isPySpace c

/-- A word character, as matched by the unit group of the regex on source
line 31. -/
def isWordChar (c : Char) : Bool :=
  c.isAlphanum || c = '_'

/-- Strip leading and trailing whitespace, as Python numeric constructors
do before parsing. -/
def stripSpace (l : List Char) : List Char :=
  ((l.dropWhile isPySpace).reverse.dropWhile isPySpace).reverse

/-- The natural number denoted by a list of decimal digits. -/
def digitsToNat (l : List Char) : ℕ :=
  l.foldl (fun a c => 10 * a + (c.toNat - 48)) 0

/-- Python int applied to a string: optional surrounding whitespace,
optional sign, then a nonempty run of digits; anything else raises, which
the model renders as none. -/
def pyInt (l : List Char) : Option ℤ :=
  let t := stripSpace l
  let body := if t.head? = some '-' ∨ t.head? = some '+' then t.tail else t
  let sgn : ℤ := if t.head? = some '-' then -1 else 1
  if body ≠ [] ∧ body.all Char.isDigit then some (sgn * (digitsToNat body : ℤ))
  else none

/-- Python float applied to a string drawn from the program's restricted
alphabet of digits, dot, slash and whitespace: optional surrounding
whitespace, optional sign, digits with at most one dot and at least one
digit; anything else raises, rendered as none. -/
def pyFloat (l : List Char) : Option ℚ :=
  let t := stripSpace l
  let body := if t.head? = some '-' ∨ t.head? = some '+' then t.tail else t
  let sgn : ℚ := if t.head? = some '-' then -1 else 1
  let intPart := body.takeWhile Char.isDigit
  let rest := body.dropWhile Char.isDigit
  if rest = [] then
    if intPart ≠ [] then some (sgn * (digitsToNat intPart : ℚ)) else none
  else if rest.head? = some '.' then
    if rest.tail.all Char.isDigit ∧ (intPart ≠ [] ∨ rest.tail ≠ []) then
      some (sgn *
        ((digitsToNat intPart : ℚ) + (digitsToNat rest.tail : ℚ) / 10 ^ rest.tail.length))
    else none
  else none

/-- Convert fraction strings to floats (source lines 19-26): a string
containing a space is split into a whole part and a fraction part, the
fraction part is split on the slash into an integer numerator and
denominator, and the result is float of the whole plus numerator over
denominator; a string without a space is parsed as a plain float.  Any
raised exception, including division by a zero denominator, is rendered
as none. -/
def fraction_to_float (l : List Char) : Option ℚ :=
  if ' ' ∈ l then
    match splitChar ' ' l with
    | [whole, fraction] =>
      match splitChar '/' fraction with
      | [ns, ds] =>
        match pyInt ns, pyInt ds with
        | some n, some d =>
          if d = 0 then none
          else (pyFloat whole).map fun w => w + (n : ℚ) / (d : ℚ)
        | _, _ => none
      | _ => none
    | _ => none
  else pyFloat l

/-- The value group of the regex on source line 31: the longest prefix of
value characters. -/
def valuePart (l : List Char) : List Char :=
  l.takeWhile isValueChar

/-- The unit group of the regex on source line 31: the longest run of word
characters after the value group. -/
def unitPart (l : List Char) : List Char :=
  (l.dropWhile isValueChar).takeWhile isWordChar

/-- Convert dimensions with units to inches (source lines 29-36): the
regex splits the string into a value group and a unit group; if the value
group is empty the regex does not match and the call raises, rendered as
none; otherwise the value is parsed by fraction_to_float and divided by
mm_per_inch exactly when the lowercased unit is mm. -/
def convert_to_inches (l : List Char) : Option ℚ :=
  if valuePart l = [] then none
  else
    (fraction_to_float (valuePart l)).map fun v =>
      if (unitPart l).map Char.toLower = ['m', 'm'] then v / mm_per_inch else v

/-- A rounded rectangle as handed to svgwrite: top-left position, size,
corner radius, stroke colour, fill, stroke width. -/
structure Shape where
  x : ℚ
  y : ℚ
  width : ℚ
  height : ℚ
  rx : ℚ
  stroke : String
  fill : String
  strokeWidth : ℚ
deriving DecidableEq, Repr

/-- Drawer width in pixels: mm_to_px of the width in inches times
mm_per_inch (source line 42). -/
def drawer_width_px (drawer_width_inch : ℚ) : ℚ :=
  mm_to_px (drawer_width_inch * mm_per_inch)

/-- Drawer height in pixels (source line 43). -/
def drawer_height_px (drawer_height_inch : ℚ) : ℚ :=
  mm_to_px (drawer_height_inch * mm_per_inch)

/-- Number of columns: max of the floor of drawer width over pitch, and 1
(source line 45).  Python int(a // b) on nonnegative floats is the floor. -/
def cols (drawer_width_inch top_unit_size_px : ℚ) : ℤ :=
  max ⌊drawer_width_px drawer_width_inch / top_unit_size_px⌋ 1

/-- Number of rows (source line 46). -/
def rows (drawer_height_inch top_unit_size_px : ℚ) : ℤ :=
  max ⌊drawer_height_px drawer_height_inch / top_unit_size_px⌋ 1

/-- Horizontal centering offset of the grid (source line 51). -/
def start_x_px (drawer_width_inch top_unit_size_px : ℚ) : ℚ :=
  (drawer_width_px drawer_width_inch -
    (cols drawer_width_inch top_unit_size_px : ℚ) * top_unit_size_px) / 2

/-- Vertical centering offset of the grid (source line 52). -/
def start_y_px (drawer_height_inch top_unit_size_px : ℚ) : ℚ :=
  (drawer_height_px drawer_height_inch -
    (rows drawer_height_inch top_unit_size_px : ℚ) * top_unit_size_px) / 2

/-- The enclosing border rectangle (source lines 61-63): from the origin,
spanning the full canvas, with the given corner radius, black hairline
stroke and no fill. -/
def borderShape (corner_radius_px drawer_width_inch drawer_height_inch : ℚ) : Shape :=
  ⟨0, 0, drawer_width_px drawer_width_inch, drawer_height_px drawer_height_inch,
    corner_radius_px, "black", "none", mm_to_px hairline_stroke_mm⟩

/-- The cell rectangle for column x and row y (source lines 68-73):
centering offset plus index times pitch plus the per-cell inner offset,
sized base_unit_size_px square. -/
def cellShape (top_unit_size_px base_unit_size_px corner_radius_px
    drawer_width_inch drawer_height_inch : ℚ) (x y : ℕ) : Shape :=
  ⟨start_x_px drawer_width_inch top_unit_size_px + x * top_unit_size_px +
      (top_unit_size_px - base_unit_size_px) / 2,
    start_y_px drawer_height_inch top_unit_size_px + y * top_unit_size_px +
      (top_unit_size_px - base_unit_size_px) / 2,
    base_unit_size_px, base_unit_size_px,
    corner_radius_px, "black", "none", mm_to_px hairline_stroke_mm⟩

/-- The grid cells in emission order: columns outer, rows inner
(source lines 66-73). -/
def cellShapes (top_unit_size_px base_unit_size_px corner_radius_px
    drawer_width_inch drawer_height_inch : ℚ) : List Shape :=
  (List.range (cols drawer_width_inch top_unit_size_px).toNat).flatMap fun x =>
    (List.range (rows drawer_height_inch top_unit_size_px).toNat).map fun y =>
      cellShape top_unit_size_px base_unit_size_px corner_radius_px
        drawer_width_inch drawer_height_inch x y

/-- All shapes added to the drawing, in order: the border, then the grid
cells (source lines 39-75). -/
def create_gridfinity_baseplate_svg (top_unit_size_px base_unit_size_px corner_radius_px
    drawer_width_inch drawer_height_inch : ℚ) : List Shape :=
  borderShape corner_radius_px drawer_width_inch drawer_height_inch ::
    cellShapes top_unit_size_px base_unit_size_px corner_radius_px
      drawer_width_inch drawer_height_inch

/-- Outcome of running main (source lines 78-96): either the
please-provide-dimensions message is printed and the process exits with
status 1, or the SVG is created and written. -/
inductive MainResult where
  | usageExit1 : MainResult
  | writeSvg : List Shape → MainResult
deriving DecidableEq

/-- Python truthiness of an optional parsed dimension: None is falsy, and
a float is falsy exactly when it is zero. -/
def truthy : Option ℚ → Bool
  | none => false
  | some q => q ≠ 0

/-- The main glue (source lines 89-96) as a function of the two parsed
optional dimension arguments: if both are truthy, the baseplate SVG is
created with the pixel-converted module constants; otherwise the usage
message is printed and the process exits with status 1. -/
def mainRun (drawer_width drawer_height : Option ℚ) : MainResult :=
  match drawer_width, drawer_height with
  | some w, some h =>
    if truthy (some w) && truthy (some h) then
      MainResult.writeSvg (create_gridfinity_baseplate_svg (mm_to_px top_unit_size_mm)
        (mm_to_px base_unit_size_mm) (mm_to_px corner_radius_mm) w h)
    else MainResult.usageExit1
  | _, _ => MainResult.usageExit1

/-! Helper lemmas about lists of uniform-length blocks. -/

theorem flatMap_length_const {α β : Type} (l : List α) (f : α → List β) (m : ℕ)
    (hm : ∀ a ∈ l, (f a).length = m) : (l.flatMap f).length = l.length * m := by
  induction l with
  | nil => simp
  | cons a l ih =>
    simp only [List.flatMap_cons, List.length_append, List.length_cons]
    rw [hm a (List.mem_cons_self a l), ih fun b hb => hm b (List.mem_cons_of_mem a hb)]
    ring

theorem flatMap_getElem? {α β : Type} (l : List α) (f : α → List β) (m : ℕ)
    (hm : ∀ a ∈ l, (f a).length = m) :
    ∀ (i j : ℕ), j < m → (hi : i < l.length) →
      (l.flatMap f)[i * m + j]? = (f (l.get ⟨i, hi⟩))[j]? := by
  induction l with
  | nil => intro i j _ hi; exact absurd hi (by simp)
  | cons a l ih =>
    intro i j hj hi
    cases i with
    | zero =>
      simp only [List.flatMap_cons, Nat.zero_mul, Nat.zero_add]
      rw [List.getElem?_append_left]
      · rfl
      · rw [hm a (List.mem_cons_self a l)]; exact hj
    | succ i =>
      simp only [List.flatMap_cons]
      rw [List.getElem?_append_right]
      · rw [hm a (List.mem_cons_self a l)]
        have h2 : (i + 1) * m + j - m = i * m + j := by
          rw [Nat.succ_mul]; omega
        rw [h2]
        exact ih (fun b hb => hm b (List.mem_cons_of_mem a hb)) i j hj
          (Nat.lt_of_succ_lt_succ hi)
      · rw [hm a (List.mem_cons_self a l)]
        calc m ≤ (i + 1) * m := by rw [Nat.succ_mul]; omega
        _ ≤ (i + 1) * m + j := Nat.le_add_right _ _

/-! Claim theorems. -/

/-- C1: for every positive drawer width and height (and positive pitch),
the computed grid size satisfies cols equals max of the floor of width in
pixels over pitch in pixels and 1, and symmetrically for rows; floor
truncation means a partially fitting cell is dropped, so whenever at least
one whole pitch fits the occupied span does not exceed the drawer; and
columns and rows are always at least 1. -/
theorem cols_rows_spec (w h top : ℚ) (hw : 0 < w) (hh : 0 < h) (htop : 0 < top) :
    cols w top = max ⌊drawer_width_px w / top⌋ 1 ∧
    rows h top = max ⌊drawer_height_px h / top⌋ 1 ∧
    1 ≤ cols w top ∧ 1 ≤ rows h top ∧
    (1 ≤ ⌊drawer_width_px w / top⌋ → (cols w top : ℚ) * top ≤ drawer_width_px w) ∧
    (1 ≤ ⌊drawer_height_px h / top⌋ → (rows h top : ℚ) * top ≤ drawer_height_px h) := by
  refine ⟨rfl, rfl, le_max_right _ _, le_max_right _ _, ?_, ?_⟩
  · intro h1
    rw [cols, max_eq_left h1]
    have h2 : (⌊drawer_width_px w / top⌋ : ℚ) ≤ drawer_width_px w / top :=
      Int.floor_le _
    calc (⌊drawer_width_px w / top⌋ : ℚ) * top ≤ (drawer_width_px w / top) * top :=
        mul_le_mul_of_nonneg_right h2 (le_of_lt htop)
    _ = drawer_width_px w := div_mul_cancel₀ _ (ne_of_gt htop)
  · intro h1
    rw [rows, max_eq_left h1]
    have h2 : (⌊drawer_height_px h / top⌋ : ℚ) ≤ drawer_height_px h / top :=
      Int.floor_le _
    calc (⌊drawer_height_px h / top⌋ : ℚ) * top ≤ (drawer_height_px h / top) * top :=
        mul_le_mul_of_nonneg_right h2 (le_of_lt htop)
    _ = drawer_height_px h := div_mul_cancel₀ _ (ne_of_gt htop)

/-- Witness for C1 at the spec's worked example, a 16.5 by 11.5 inch
drawer with the program's 42 mm pitch: 9 columns and 6 rows. -/
theorem cols_rows_spec_witness :
    (0 : ℚ) < 33 / 2 ∧ (0 : ℚ) < 23 / 2 ∧ 0 < mm_to_px top_unit_size_mm ∧
    cols (33 / 2) (mm_to_px top_unit_size_mm) = 9 ∧
    rows (23 / 2) (mm_to_px top_unit_size_mm) = 6 ∧
    (cols (33 / 2) (mm_to_px top_unit_size_mm) =
        max ⌊drawer_width_px (33 / 2) / mm_to_px top_unit_size_mm⌋ 1 ∧
      rows (23 / 2) (mm_to_px top_unit_size_mm) =
        max ⌊drawer_height_px (23 / 2) / mm_to_px top_unit_size_mm⌋ 1 ∧
      1 ≤ cols (33 / 2) (mm_to_px top_unit_size_mm) ∧
      1 ≤ rows (23 / 2) (mm_to_px top_unit_size_mm) ∧
      (1 ≤ ⌊drawer_width_px (33 / 2) / mm_to_px top_unit_size_mm⌋ →
        (cols (33 / 2) (mm_to_px top_unit_size_mm) : ℚ) * mm_to_px top_unit_size_mm ≤
          drawer_width_px (33 / 2)) ∧
      (1 ≤ ⌊drawer_height_px (23 / 2) / mm_to_px top_unit_size_mm⌋ →
        (rows (23 / 2) (mm_to_px top_unit_size_mm) : ℚ) * mm_to_px top_unit_size_mm ≤
          drawer_height_px (23 / 2))) :=
  ⟨by norm_num,
   by norm_num,
   by norm_num [mm_to_px, top_unit_size_mm, dpi, mm_per_inch],
   by norm_num [cols, drawer_width_px, mm_to_px, top_unit_size_mm, dpi, mm_per_inch],
   by norm_num [rows, drawer_height_px, mm_to_px, top_unit_size_mm, dpi, mm_per_inch],
   cols_rows_spec (33 / 2) (23 / 2) (mm_to_px top_unit_size_mm)
     (by norm_num) (by norm_num)
     (by norm_num [mm_to_px, top_unit_size_mm, dpi, mm_per_inch])⟩

/-- C2: for every positive drawer width and height, twice the centering
offset plus the occupied span equals the drawer size in pixels on each
axis, and the offset is not clamped: on a 1 inch drawer, smaller than one
42 mm pitch, the horizontal offset is strictly negative. -/
theorem centering_offset_spec (w h top : ℚ) (hw : 0 < w) (hh : 0 < h) :
    2 * start_x_px w top + (cols w top : ℚ) * top = drawer_width_px w ∧
    2 * start_y_px h top + (rows h top : ℚ) * top = drawer_height_px h ∧
    start_x_px 1 (mm_to_px top_unit_size_mm) < 0 := by
  refine ⟨?_, ?_, ?_⟩
  · rw [start_x_px]; ring
  · rw [start_y_px]; ring
  · norm_num [start_x_px, cols, drawer_width_px, mm_to_px, top_unit_size_mm, dpi,
      mm_per_inch]

/-- Witness for C2 at a 16.5 by 11.5 inch drawer with the 42 mm pitch. -/
theorem centering_offset_spec_witness :
    (0 : ℚ) < 33 / 2 ∧ (0 : ℚ) < 23 / 2 ∧
    (2 * start_x_px (33 / 2) (mm_to_px top_unit_size_mm) +
        (cols (33 / 2) (mm_to_px top_unit_size_mm) : ℚ) * mm_to_px top_unit_size_mm =
        drawer_width_px (33 / 2) ∧
      2 * start_y_px (23 / 2) (mm_to_px top_unit_size_mm) +
        (rows (23 / 2) (mm_to_px top_unit_size_mm) : ℚ) * mm_to_px top_unit_size_mm =
        drawer_height_px (23 / 2) ∧
      start_x_px 1 (mm_to_px top_unit_size_mm) < 0) :=
  ⟨by norm_num, by norm_num,
   centering_offset_spec (33 / 2) (23 / 2) (mm_to_px top_unit_size_mm)
     (by norm_num) (by norm_num)⟩

/-- C5: converting inches to millimetres by multiplying by 25.4 and then
millimetres to pixels is exactly multiplication by the 96 DPI resolution,
for every dimension in inches. -/
theorem inches_to_px_spec (inch : ℚ) :
    mm_to_px (inch * mm_per_inch) = inch * dpi ∧
    drawer_width_px inch = inch * 96 ∧
    drawer_height_px inch = inch * 96 := by
  have h1 : mm_to_px (inch * mm_per_inch) = inch * dpi := by
    rw [mm_to_px, dpi, mm_per_inch]; ring
  refine ⟨h1, ?_, ?_⟩
  · rw [drawer_width_px, h1, dpi]
  · rw [drawer_height_px, h1, dpi]

/-- C3: the emitted document is one border shape followed by exactly
columns times rows cell shapes, so the total count is columns times rows
plus one; the border starts at the origin, spans the full drawer canvas,
and carries the configured corner radius, black hairline stroke and no
fill. -/
theorem shape_count_border_spec (top base r w h : ℚ) :
    ((create_gridfinity_baseplate_svg top base r w h).length : ℤ) =
      cols w top * rows h top + 1 ∧
    (cellShapes top base r w h).length = (cols w top).toNat * (rows h top).toNat ∧
    (create_gridfinity_baseplate_svg top base r w h).head? = some (borderShape r w h) ∧
    (borderShape r w h).x = 0 ∧ (borderShape r w h).y = 0 ∧
    (borderShape r w h).width = drawer_width_px w ∧
    (borderShape r w h).height = drawer_height_px h ∧
    (borderShape r w h).rx = r ∧
    (borderShape r w h).stroke = "black" ∧
    (borderShape r w h).fill = "none" ∧
    (borderShape r w h).strokeWidth = mm_to_px hairline_stroke_mm := by
  have hcell : (cellShapes top base r w h).length =
      (cols w top).toNat * (rows h top).toNat := by
    rw [cellShapes, flatMap_length_const _ _ (rows h top).toNat
      (fun a _ => by simp), List.length_range]
  refine ⟨?_, hcell, rfl, rfl, rfl, rfl, rfl, rfl, rfl, rfl, rfl⟩
  rw [create_gridfinity_baseplate_svg, List.length_cons, hcell]
  have h1 : (0 : ℤ) ≤ cols w top := le_trans zero_le_one (le_max_right _ _)
  have h2 : (0 : ℤ) ≤ rows h top := le_trans zero_le_one (le_max_right _ _)
  push_cast [Int.toNat_of_nonneg h1, Int.toNat_of_nonneg h2]
  ring

/-- C4: for every cell index pair inside the grid, the shape emitted at
flat position column index times rows plus row index is the cell shape for
that pair, whose top-left position is the centering offset plus index
times pitch plus the per-cell inner offset on each axis, sized
base_unit_size_px square. -/
theorem cell_position_spec (top base r w h : ℚ) (i j : ℕ)
    (hi : i < (cols w top).toNat) (hj : j < (rows h top).toNat) :
    (cellShapes top base r w h)[i * (rows h top).toNat + j]? =
      some (cellShape top base r w h i j) ∧
    (cellShape top base r w h i j).x =
      start_x_px w top + i * top + (top - base) / 2 ∧
    (cellShape top base r w h i j).y =
      start_y_px h top + j * top + (top - base) / 2 ∧
    (cellShape top base r w h i j).width = base ∧
    (cellShape top base r w h i j).height = base := by
  refine ⟨?_, rfl, rfl, rfl, rfl⟩
  rw [cellShapes, flatMap_getElem? _ _ ((rows h top).toNat) (fun a _ => by simp) i j hj
    (by simpa using hi)]
  rw [List.get_range, List.getElem?_map, List.getElem?_range hj]
  rfl

/-- Witness for C4: with pitch 96 px, cell 1 px, radius 0, a 1 by 1 inch
drawer has a single cell, and the shape at flat position 0 is the cell
shape for the pair of zero indices. -/
theorem cell_position_spec_witness :
    0 < (cols 1 96).toNat ∧ 0 < (rows 1 96).toNat ∧
    ((cellShapes 96 1 0 1 1)[0 * (rows 1 96).toNat + 0]? =
        some (cellShape 96 1 0 1 1 0 0) ∧
      (cellShape 96 1 0 1 1 0 0).x = start_x_px 1 96 + (0 : ℕ) * 96 + (96 - 1) / 2 ∧
      (cellShape 96 1 0 1 1 0 0).y = start_y_px 1 96 + (0 : ℕ) * 96 + (96 - 1) / 2 ∧
      (cellShape 96 1 0 1 1 0 0).width = 1 ∧
      (cellShape 96 1 0 1 1 0 0).height = 1) :=
  ⟨by norm_num [cols, drawer_width_px, mm_to_px, dpi, mm_per_inch],
   by norm_num [rows, drawer_height_px, mm_to_px, dpi, mm_per_inch],
   cell_position_spec 96 1 0 1 1 0 0
     (by norm_num [cols, drawer_width_px, mm_to_px, dpi, mm_per_inch])
     (by norm_num [rows, drawer_height_px, mm_to_px, dpi, mm_per_inch])⟩

/-! Helper lemmas about character lists and the parsing helpers. -/

theorem dropWhile_eq_self_of_false {p : Char → Bool} {l : List Char}
    (h : ∀ c ∈ l, p c = false) : l.dropWhile p = l := by
  cases l with
  | nil => rfl
  | cons c rest => simp [List.dropWhile_cons, h c (List.mem_cons_self c rest)]

theorem takeWhile_eq_self_of_true {p : Char → Bool} {l : List Char}
    (h : ∀ c ∈ l, p c = true) : l.takeWhile p = l := by
  induction l with
  | nil => rfl
  | cons c rest ih =>
    simp [List.takeWhile_cons, h c (List.mem_cons_self c rest),
      ih fun b hb => h b (List.mem_cons_of_mem c hb)]

theorem dropWhile_eq_nil_of_true {p : Char → Bool} {l : List Char}
    (h : ∀ c ∈ l, p c = true) : l.dropWhile p = [] := by
  induction l with
  | nil => rfl
  | cons c rest ih =>
    simp [List.dropWhile_cons, h c (List.mem_cons_self c rest),
      ih fun b hb => h b (List.mem_cons_of_mem c hb)]

theorem stripSpace_eq_self {l : List Char} (h : ∀ c ∈ l, isPySpace c = false) :
    stripSpace l = l := by
  rw [stripSpace, dropWhile_eq_self_of_false h,
    dropWhile_eq_self_of_false fun c hc => h c (List.mem_reverse.mp hc),
    List.reverse_reverse]

theorem isDigit_eq_false_of_isPySpace {c : Char} (h : isPySpace c = true) :
    c.isDigit = false := by
  simp only [isPySpace, Bool.or_eq_true, decide_eq_true_eq] at h
  rcases h with ((((rfl | rfl) | rfl) | rfl) | rfl) | rfl <;> decide

theorem isPySpace_eq_false_of_isDigit {c : Char} (h : c.isDigit = true) :
    isPySpace c = false := by
  cases hps : isPySpace c with
  | false => rfl
  | true =>
    rw [isDigit_eq_false_of_isPySpace hps] at h
    exact Bool.noConfusion h

theorem not_mem_of_all_digits {l : List Char} {c : Char}
    (hall : l.all Char.isDigit = true) (hc : c.isDigit = false) : c ∉ l := by
  intro hmem
  have h1 := List.all_eq_true.mp hall c hmem
  rw [hc] at h1
  exact Bool.noConfusion h1

theorem splitChar_of_not_mem {sep : Char} {l : List Char} (h : sep ∉ l) :
    splitChar sep l = [l] := by
  induction l with
  | nil => rfl
  | cons c rest ih =>
    have hc : ¬ c = sep := fun hceq => h (by rw [← hceq]; exact List.mem_cons_self c rest)
    have hrest : sep ∉ rest := fun hm => h (List.mem_cons_of_mem c hm)
    simp only [splitChar, if_neg hc, ih hrest, List.headI, List.tail_cons]

theorem splitChar_append {sep : Char} {l₁ l₂ : List Char} (h : sep ∉ l₁) :
    splitChar sep (l₁ ++ sep :: l₂) = l₁ :: splitChar sep l₂ := by
  induction l₁ with
  | nil => simp only [List.nil_append, splitChar, if_pos]
  | cons c rest ih =>
    have hc : ¬ c = sep := fun hceq => h (by rw [← hceq]; exact List.mem_cons_self c rest)
    have hrest : sep ∉ rest := fun hm => h (List.mem_cons_of_mem c hm)
    simp only [List.cons_append, List.append_eq, splitChar, if_neg hc, ih hrest,
      List.headI, List.tail_cons]

theorem pyInt_digits {l : List Char} (hne : l ≠ []) (hd : l.all Char.isDigit = true) :
    pyInt l = some (digitsToNat l : ℤ) := by
  have hs : stripSpace l = l :=
    stripSpace_eq_self fun c hc =>
      isPySpace_eq_false_of_isDigit (List.all_eq_true.mp hd c hc)
  cases l with
  | nil => exact absurd rfl hne
  | cons c rest =>
    have hcd : c.isDigit = true :=
      List.all_eq_true.mp hd c (List.mem_cons_self c rest)
    have hminus : ¬ (c = '-') := fun hceq => absurd hcd (by rw [hceq]; decide)
    have hplus : ¬ (c = '+') := fun hceq => absurd hcd (by rw [hceq]; decide)
    have hsigns : ¬ ((c :: rest).head? = some '-' ∨ (c :: rest).head? = some '+') := by
      rintro (h1 | h1) <;> rw [List.head?_cons, Option.some_inj] at h1
      · exact hminus h1
      · exact hplus h1
    have hsignm : ¬ ((c :: rest).head? = some '-') := fun h1 =>
      hsigns (Or.inl h1)
    simp only [pyInt, hs, if_neg hsigns, if_neg hsignm,
      if_pos (And.intro (List.cons_ne_nil c rest) hd), one_mul]

theorem pyFloat_digits {l : List Char} (hne : l ≠ []) (hd : l.all Char.isDigit = true) :
    pyFloat l = some (digitsToNat l : ℚ) := by
  have hs : stripSpace l = l :=
    stripSpace_eq_self fun c hc =>
      isPySpace_eq_false_of_isDigit (List.all_eq_true.mp hd c hc)
  have htake : l.takeWhile Char.isDigit = l :=
    takeWhile_eq_self_of_true (List.all_eq_true.mp hd)
  have hdrop : l.dropWhile Char.isDigit = [] :=
    dropWhile_eq_nil_of_true (List.all_eq_true.mp hd)
  cases l with
  | nil => exact absurd rfl hne
  | cons c rest =>
    have hcd : c.isDigit = true :=
      List.all_eq_true.mp hd c (List.mem_cons_self c rest)
    have hminus : ¬ (c = '-') := fun hceq => absurd hcd (by rw [hceq]; decide)
    have hplus : ¬ (c = '+') := fun hceq => absurd hcd (by rw [hceq]; decide)
    have hsigns : ¬ ((c :: rest).head? = some '-' ∨ (c :: rest).head? = some '+') := by
      rintro (h1 | h1) <;> rw [List.head?_cons, Option.some_inj] at h1
      · exact hminus h1
      · exact hplus h1
    have hsignm : ¬ ((c :: rest).head? = some '-') := fun h1 =>
      hsigns (Or.inl h1)
    simp only [pyFloat, hs, if_neg hsigns, if_neg hsignm, hdrop, htake, if_pos rfl,
      if_pos (List.cons_ne_nil c rest), one_mul, if_true]

/-- C7: fraction strings of the form whole, space, numerator, slash,
denominator parse to whole plus numerator over denominator, and plain
decimals parse directly: the string 10 1/2 gives 10.5 and the string 7
gives 7. -/
theorem fraction_to_float_spec :
    fraction_to_float "10 1/2".data = some (21 / 2) ∧
    fraction_to_float "7".data = some 7 ∧
    ∀ (wl nl dl : List Char),
      wl ≠ [] → wl.all Char.isDigit = true →
      nl ≠ [] → nl.all Char.isDigit = true →
      dl ≠ [] → dl.all Char.isDigit = true →
      digitsToNat dl ≠ 0 →
      fraction_to_float (wl ++ ' ' :: (nl ++ '/' :: dl)) =
        some ((digitsToNat wl : ℚ) + (digitsToNat nl : ℚ) / (digitsToNat dl : ℚ)) := by
  refine ⟨?_, ?_, ?_⟩
  · simp +decide [fraction_to_float, pyFloat, pyInt, splitChar, stripSpace, digitsToNat]
    norm_num
  · simp +decide [fraction_to_float, pyFloat, stripSpace, digitsToNat]
  · intro wl nl dl hw hwd hn hnd hdl hdd hd0
    have hsw : ' ' ∉ wl := not_mem_of_all_digits hwd (by decide)
    have hsn : ' ' ∉ nl := not_mem_of_all_digits hnd (by decide)
    have hsd : ' ' ∉ dl := not_mem_of_all_digits hdd (by decide)
    have hfn : '/' ∉ nl := not_mem_of_all_digits hnd (by decide)
    have hfd : '/' ∉ dl := not_mem_of_all_digits hdd (by decide)
    have hmem : ' ' ∈ wl ++ ' ' :: (nl ++ '/' :: dl) := by simp
    have hrest : ' ' ∉ nl ++ '/' :: dl := by
      intro hm
      rcases List.mem_append.mp hm with hm1 | hm2
      · exact hsn hm1
      · rcases List.mem_cons.mp hm2 with hm3 | hm4
        · exact absurd hm3 (by decide)
        · exact hsd hm4
    have hd0z : ¬ ((digitsToNat dl : ℤ) = 0) := by
      exact_mod_cast hd0
    rw [fraction_to_float, if_pos hmem, splitChar_append hsw,
      splitChar_of_not_mem hrest]
    show (match splitChar '/' (nl ++ '/' :: dl) with
      | [ns, ds] =>
        match pyInt ns, pyInt ds with
        | some n, some d =>
          if d = 0 then none
          else (pyFloat wl).map fun w => w + (n : ℚ) / (d : ℚ)
        | _, _ => none
      | _ => none) = _
    rw [splitChar_append hfn, splitChar_of_not_mem hfd]
    show (match pyInt nl, pyInt dl with
      | some n, some d =>
        if d = 0 then none
        else (pyFloat wl).map fun w => w + (n : ℚ) / (d : ℚ)
      | _, _ => none) = _
    rw [pyInt_digits hn hnd, pyInt_digits hdl hdd]
    show (if (digitsToNat dl : ℤ) = 0 then none
      else (pyFloat wl).map fun w => w + ((digitsToNat nl : ℤ) : ℚ) / ((digitsToNat dl : ℤ) : ℚ)) = _
    rw [if_neg hd0z, pyFloat_digits hw hwd, Option.map_some']
    push_cast
    ring_nf

/-- Witness for C7: the general mixed-number case at the string 3 1/4. -/
theorem fraction_to_float_spec_witness :
    (['3'] : List Char) ≠ [] ∧ (['3'] : List Char).all Char.isDigit = true ∧
    (['1'] : List Char) ≠ [] ∧ (['1'] : List Char).all Char.isDigit = true ∧
    (['4'] : List Char) ≠ [] ∧ (['4'] : List Char).all Char.isDigit = true ∧
    digitsToNat ['4'] ≠ 0 ∧
    fraction_to_float (['3'] ++ ' ' :: (['1'] ++ '/' :: ['4'])) =
      some ((digitsToNat ['3'] : ℚ) + (digitsToNat ['1'] : ℚ) / (digitsToNat ['4'] : ℚ)) :=
  ⟨by decide, by decide, by decide, by decide, by decide, by decide, by decide,
   fraction_to_float_spec.2.2 ['3'] ['1'] ['4']
     (by decide) (by decide) (by decide) (by decide) (by decide) (by decide) (by decide)⟩

/-- C6: a dimension string whose unit suffix lowercases to mm has its
parsed numeric value divided by 25.4, so the string 300mm parses to
exactly 300 over mm_per_inch; any other suffix, including the empty one,
returns the numeric value unchanged. -/
theorem convert_to_inches_spec :
    convert_to_inches "300mm".data = some (300 / mm_per_inch) ∧
    (∀ (l : List Char) (q : ℚ), valuePart l ≠ [] →
      fraction_to_float (valuePart l) = some q →
      (unitPart l).map Char.toLower = ['m', 'm'] →
      convert_to_inches l = some (q / mm_per_inch)) ∧
    (∀ (l : List Char) (q : ℚ), valuePart l ≠ [] →
      fraction_to_float (valuePart l) = some q →
      (unitPart l).map Char.toLower ≠ ['m', 'm'] →
      convert_to_inches l = some q) := by
  refine ⟨?_, ?_, ?_⟩
  · simp +decide [convert_to_inches, valuePart, unitPart, fraction_to_float, pyFloat,
      stripSpace, digitsToNat]
  · intro l q hne hf hmm
    rw [convert_to_inches, if_neg hne, hf, Option.map_some']
    rw [if_pos hmm]
  · intro l q hne hf hmm
    rw [convert_to_inches, if_neg hne, hf, Option.map_some']
    rw [if_neg hmm]

/-- Witness for C6: the non-mm branch at the string 7in. -/
theorem convert_to_inches_spec_witness :
    valuePart "7in".data ≠ [] ∧
    fraction_to_float (valuePart "7in".data) = some 7 ∧
    (unitPart "7in".data).map Char.toLower ≠ ['m', 'm'] ∧
    convert_to_inches "7in".data = some 7 :=
  ⟨by decide,
   by simp +decide [valuePart, fraction_to_float, pyFloat, stripSpace, digitsToNat],
   by decide,
   convert_to_inches_spec.2.2 "7in".data 7 (by decide)
     (by simp +decide [valuePart, fraction_to_float, pyFloat, stripSpace, digitsToNat])
     (by decide)⟩

/-- C8: a malformed dimension string fails to parse: whenever the value
group does not parse as a number or fraction the whole conversion returns
no value, and in particular the strings abc and 1 2 fail. -/
theorem parse_error_spec :
    (∀ l : List Char, fraction_to_float (valuePart l) = none →
      convert_to_inches l = none) ∧
    convert_to_inches "abc".data = none ∧
    convert_to_inches "1 2".data = none := by
  refine ⟨?_, ?_, ?_⟩
  · intro l hf
    by_cases hne : valuePart l = []
    · rw [convert_to_inches, if_pos hne]
    · rw [convert_to_inches, if_neg hne, hf]; rfl
  · simp +decide [convert_to_inches, valuePart]
  · simp +decide [convert_to_inches, valuePart, fraction_to_float, splitChar, pyInt,
      stripSpace]

/-- Witness for C8: the general direction at the string consisting of one
slash, whose value group is nonempty but numerically unparseable. -/
theorem parse_error_spec_witness :
    fraction_to_float (valuePart "/".data) = none ∧
    convert_to_inches "/".data = none :=
  ⟨by simp +decide [valuePart, fraction_to_float, pyFloat, stripSpace],
   parse_error_spec.1 "/".data
     (by simp +decide [valuePart, fraction_to_float, pyFloat, stripSpace])⟩

/-- C9: the bare fraction 1/2, with no whole part and no space, is
rejected: the string contains no space so the fraction branch is not
taken, and the plain float branch cannot parse a slash, so both the
fraction parser and the full conversion return no value. -/
theorem bare_fraction_spec :
    fraction_to_float "1/2".data = none ∧
    convert_to_inches "1/2".data = none ∧
    ' ' ∉ "1/2".data ∧
    pyFloat "1/2".data = none := by
  refine ⟨?_, ?_, by decide, ?_⟩
  · simp +decide [fraction_to_float, pyFloat, stripSpace]
  · simp +decide [convert_to_inches, valuePart, fraction_to_float, pyFloat, stripSpace]
  · simp +decide [pyFloat, stripSpace]

/-- C10: a drawer dimension that parses to exactly zero, as the inputs 0
and 0mm do, makes main take the same branch as a missing argument: the
usage message is printed, the process exits with status 1, and no shapes
are computed or written. -/
theorem zero_dimension_spec :
    convert_to_inches "0".data = some 0 ∧
    convert_to_inches "0mm".data = some 0 ∧
    (∀ hv : Option ℚ, mainRun (some 0) hv = MainResult.usageExit1) ∧
    (∀ wv : Option ℚ, mainRun wv (some 0) = MainResult.usageExit1) ∧
    (∀ hv : Option ℚ, mainRun (some 0) hv = mainRun none hv) := by
  have htr : truthy (some (0 : ℚ)) = false := by simp [truthy]
  refine ⟨?_, ?_, ?_, ?_, ?_⟩
  · simp +decide [convert_to_inches, valuePart, unitPart, fraction_to_float, pyFloat,
      stripSpace, digitsToNat]
  · simp +decide [convert_to_inches, valuePart, unitPart, fraction_to_float, pyFloat,
      stripSpace, digitsToNat]
  · intro hv
    cases hv with
    | none => rfl
    | some q => simp [mainRun, htr]
  · intro wv
    cases wv with
    | none => rfl
    | some q => simp [mainRun, htr]
  · intro hv
    cases hv with
    | none => rfl
    | some q => simp [mainRun, htr]

end Laserfinity
